import Mathlib

/-!
Shallow embedding of rekby/obsidian-paste-transform, src/main.ts.

The file embeds the rule data model, rule compilation (compileRules),
rule selection (findMatchingRule), rule execution (executeRule,
ReplaceRule.executeScript), the public entry point (applyRules) and the
version-1 settings migration branch of loadSettings.

Modelling decisions, stated once here:

* JavaScript RegExp values are modelled for the fragment the claims
  exercise: patterns that are literal strings (no regex metacharacters).
  `new RegExp(p)` (main.ts:71, deliberately built WITHOUT the global
  flag, see the source comment "Remove 'g' flag") is embedded by
  `regExpNew`, which succeeds exactly on that literal fragment and fails
  (models a thrown SyntaxError) outside it.  The concrete invalid
  pattern used below, "(", is a genuine JavaScript SyntaxError
  ("Unterminated group"), so refutations built on it are sound for the
  real code.  For a literal pattern, `String.prototype.match` returns
  the leftmost occurrence and `String.prototype.replace` on a
  non-global regex rewrites only that leftmost occurrence; both are
  embedded below.  String indices count characters (the examples are
  ASCII, where this agrees with JavaScript's UTF-16 indices).
* A rule's `script` field holds JavaScript source text that main.ts
  runs through eval.  It is embedded by its denotation: a function from
  the match object to `Except String String`, where `Except.error`
  models a thrown error or rejected promise and `Except.ok` the settled
  string result (the code awaits the result, so the settled value is
  all that is observable).  `none` models both `null` and the empty
  string, which is falsy in the `if (this.script)` / `if (rule.script)`
  tests of main.ts.
* Exceptions that main.ts lets escape are modelled by `Option` results
  (`none` = the exception propagates to the caller).
* `console.log` / `console.error` calls and the `debugMode` flag only
  produce console output and never change a returned string; they are
  dropped from the value-level embedding.  `executeScriptWithNotices`
  additionally records every user-facing `Notice` the method would
  issue; main.ts constructs no Notice anywhere, so that record is
  always empty.
-/

/-- Characters that are special in JavaScript regular-expression syntax.
A pattern containing none of them is a valid JS regex that matches
itself literally. -/
def regexSpecialChars : List Char :=
  ['\\', '(', ')', '[', ']', '\x7b', '\x7d', '.', '*', '+', '?', '^', '$', '|']

/-- True when the pattern string is inside the modelled literal fragment
of JS regex syntax (no metacharacters at all). -/
def isLiteralPattern (p : String) : Bool :=
  p.toList.all (fun c => !(regexSpecialChars.contains c))

/-- Compiled regular-expression value: the pattern source, compiled
without the global flag (main.ts:71 "Remove 'g' flag"). -/
structure JSRegex where
  source : String
  deriving DecidableEq

/-- Embedding of `new RegExp(pattern)` at main.ts:71: `some` is a
successfully constructed regex, `none` models the SyntaxError thrown
for an invalid pattern (and, conservatively, any pattern outside the
modelled literal fragment). -/
def regExpNew (p : String) : Option JSRegex :=
  if isLiteralPattern p then some ⟨p⟩ else none

/-- Leftmost index at which `needle` occurs inside the list, counting in
characters; `none` when it does not occur.  The empty needle occurs at
index 0, as in JavaScript. -/
def listIndexOf (needle : List Char) : List Char → Option Nat
  | [] => if needle.isEmpty then some 0 else none
  | c :: rest =>
    if needle.isPrefixOf (c :: rest) then some 0
    else (listIndexOf needle rest).map (fun i => i + 1)

/-- Result of `source.match(regex)` for a non-global regex with no
capture groups: `matched` is `match[0]`, `index` the match offset,
`input` the full subject string. -/
structure JsMatch where
  matched : String
  index : Nat
  input : String
  deriving DecidableEq

/-- Embedding of `source.match(rule.pattern)` (main.ts:233, 244) for a
regex of the literal fragment: the leftmost occurrence of the pattern,
or `none` when the pattern does not occur. -/
def jsMatch (s : String) (re : JSRegex) : Option JsMatch :=
  (listIndexOf re.source.toList s.toList).map (fun i => ⟨re.source, i, s⟩)

/-- JavaScript replacement-string expansion (GetSubstitution) for a
regex with no capture groups: dollar-dollar yields a dollar sign,
dollar-ampersand the matched text, dollar-backquote the text before the
match, dollar-quote the text after it; every other sequence — including
digit references, since the literal fragment has no groups — is kept
verbatim.  The backquote and quote characters are compared through
their code points 96 and 39. -/
def expandReplacementChars (matched before after : List Char) : List Char → List Char
  | [] => []
  | '$' :: c :: rest =>
    if c = '$' then '$' :: expandReplacementChars matched before after rest
    else if c = '&' then matched ++ expandReplacementChars matched before after rest
    else if c.toNat = 96 then before ++ expandReplacementChars matched before after rest
    else if c.toNat = 39 then after ++ expandReplacementChars matched before after rest
    else '$' :: c :: expandReplacementChars matched before after rest
  | c :: rest => c :: expandReplacementChars matched before after rest

/-- Embedding of `s.replace(re, replacer)` for a regex compiled WITHOUT
the global flag (main.ts:71): only the leftmost match is rewritten; a
string with no match is returned unchanged. -/
def jsReplaceFirst (s : String) (re : JSRegex) (replacer : String) : String :=
  match listIndexOf re.source.toList s.toList with
  | none => s
  | some i =>
    let cs := s.toList
    let before := cs.take i
    let after := cs.drop (i + re.source.toList.length)
    String.mk (before ++ expandReplacementChars re.source.toList before after replacer.toList ++ after)

/-- Denotation of a user script (the `script` string run through eval in
ReplaceRule.executeScript): from the match object to either a settled
string or a thrown/rejected error message. -/
def Script : Type := JsMatch → Except String String

/-- RuleType from main.ts:4: 'replace' or 'script'. -/
inductive RuleType where
  | replace
  | script
  deriving DecidableEq

/-- Rule from main.ts:7-12.  `script` is the denotation of the script
source text; `none` stands for the empty (falsy) script string. -/
structure Rule where
  pattern : String
  type : RuleType
  replacer : String
  script : Option Script

/-- PasteTransformSettingsV2 from main.ts:15-19.  These are all the
fields the source declares: there is no per-rule enabled flag and no
script-permission flag in this data model. -/
structure PasteTransformSettingsV2 where
  rules : List Rule
  settingsFormatVersion : Nat
  debugMode : Bool

/-- PasteTransformSettingsV1 from main.ts:22-27 (old settings format). -/
structure PasteTransformSettingsV1 where
  patterns : List String
  replacers : List String
  settingsFormatVersion : Nat
  debugMode : Bool

/-- ReplaceRule from main.ts:65-74 after its constructor ran: compiled
pattern, replacement template, and optional script denotation
(`none` = the constructor argument was null, i.e. a non-script rule). -/
structure ReplaceRule where
  pattern : JSRegex
  replacer : String
  script : Option Script

/-- Embedding of the ReplaceRule constructor (main.ts:70-74): `new
RegExp(pattern)` may throw, which propagates (`none`). -/
def replaceRuleNew (pattern : String) (replacer : String) (script : Option Script) :
    Option ReplaceRule :=
  (regExpNew pattern).map (fun re => ⟨re, replacer, script⟩)

/-- Embedding of ReplaceRule.executeScript (main.ts:76-109): with a
script, run it and return its string; a thrown error is caught,
logged with console.error, and `match[0]` is returned instead
(main.ts:96-100).  Without a script, return
`match[0].replace(this.pattern, this.replacer)` (main.ts:103). -/
def executeScript (rr : ReplaceRule) (m : JsMatch) : String :=
  match rr.script with
  | some f =>
    match f m with
    | Except.ok s => s
    | Except.error _ => m.matched
  | none => jsReplaceFirst m.matched rr.pattern rr.replacer

/-- Instrumented image of ReplaceRule.executeScript that additionally
records every user-facing Notice the method issues.  The method in
src/main.ts only writes to the console (console.log / console.error);
it constructs no Notice and schedules no timer, so every branch records
the empty list. -/
def executeScriptWithNotices (rr : ReplaceRule) (m : JsMatch) : String × List String :=
  match rr.script with
  | some f =>
    match f m with
    | Except.ok s => (s, [])
    | Except.error _ => (m.matched, [])
  | none => (jsReplaceFirst m.matched rr.pattern rr.replacer, [])

/-- Embedding of PasteTransform.compileRules (main.ts:213-220): build a
ReplaceRule from every rule of the settings, in order, passing the
script only for rules of type 'script'.  The loop has no try/catch, so
a RegExp constructor error thrown for any rule propagates out of the
whole compilation (`none`). -/
def compileRules : List Rule → Option (List ReplaceRule)
  | [] => some []
  | r :: rest =>
    match replaceRuleNew r.pattern r.replacer
        (if r.type = RuleType.script then r.script else none) with
    | none => none
    | some cr =>
      match compileRules rest with
      | none => none
      | some crs => some (cr :: crs)

/-- Embedding of PasteTransform.findMatchingRule (main.ts:227-240):
return the first rule, in list order, whose pattern matches the source;
`none` when no rule matches.  (The function's own null/undefined guard
is handled by the caller applyRules in this embedding, whose argument
is an `Option String`.) -/
def findMatchingRule : List ReplaceRule → String → Option ReplaceRule
  | [], _ => none
  | r :: rest, source =>
    match jsMatch source r.pattern with
    | some _ => some r
    | none => findMatchingRule rest source

/-- Embedding of PasteTransform.executeRule (main.ts:243-261): match
the source against the rule; no match returns the source unchanged;
with a script, the value of executeScript is returned AS THE ENTIRE
RESULT TEXT; without one, `source.replace(pattern, replacer)` (single
match, the regex has no global flag). -/
def executeRule (rule : ReplaceRule) (source : String) : String :=
  match jsMatch source rule.pattern with
  | none => source
  | some m =>
    match rule.script with
    | some _ => executeScript rule m
    | none => jsReplaceFirst source rule.pattern rule.replacer

/-- Embedding of PasteTransform.applyRules (main.ts:263-275): null or
undefined source (`none`) returns the empty string; otherwise execute
the first matching rule, or return the source unchanged when no rule
matches.  The return value is a plain string — the source declares
`Promise<string>` and no changed flag exists anywhere in main.ts. -/
def applyRules (rules : List ReplaceRule) : Option String → String
  | none => ""
  | some s =>
    match findMatchingRule rules s with
    | some rule => executeRule rule s
    | none => s

/-- Embedding of the version-1 loop of loadSettings (main.ts:188-197):
pair patterns and replacers positionally up to the shorter length, each
pair becoming a rule of type 'replace' with empty script. -/
def convertV1Rules : List String → List String → List Rule
  | p :: ps, r :: rs => ⟨p, RuleType.replace, r, none⟩ :: convertV1Rules ps rs
  | _, _ => []

/-- Embedding of the version-1 migration branch of loadSettings
(main.ts:181-204), taken when the loaded data has settingsFormatVersion
1 and a patterns field: the converted rules, format version 2, and
`debugMode || false`.  These are the only fields the code writes. -/
def loadSettingsV1 (old : PasteTransformSettingsV1) : PasteTransformSettingsV2 :=
  ⟨convertV1Rules old.patterns old.replacers, 2, old.debugMode || false⟩

/-! Concrete rule sets used by the claim theorems. -/

/-- Script of the third chain rule of claim C1: always returns "FINAL". -/
def c1Script : Script := fun _ => Except.ok "FINAL"

/-- Rule list of claim C1 (the spec's chain-propagation example). -/
def c1Rules : List Rule :=
  [⟨"test", RuleType.replace, "STEP1", none⟩,
   ⟨"STEP1", RuleType.replace, "STEP2", none⟩,
   ⟨"STEP2", RuleType.script, "", some c1Script⟩]

/-- Compiled form of `c1Rules`. -/
def c1Compiled : List ReplaceRule :=
  [⟨⟨"test"⟩, "STEP1", none⟩, ⟨⟨"STEP1"⟩, "STEP2", none⟩, ⟨⟨"STEP2"⟩, "", some c1Script⟩]

/-- Claim C1.  The claim states that applyRules runs every compiled rule
in order, cumulatively, so that the chain
[test to STEP1, STEP1 to STEP2, STEP2 to script returning "FINAL"]
maps "test" to "FINAL".  The code instead executes only the first
matching rule: the result is "STEP1", not "FINAL", so the claim fails
on the code (the repository's own test "should apply rules sequentially
(chain of rules)" expects "FINAL"). -/
theorem applyRules_chain_stops_after_first_matching_rule :
    compileRules c1Rules = some c1Compiled ∧
    applyRules c1Compiled (some "test") = "STEP1" ∧
    applyRules c1Compiled (some "test") ≠ "FINAL" :=
  ⟨rfl, rfl, by decide⟩

/-- Compiled rule list of claim C2: the single static rule a to A. -/
def c2Compiled : List ReplaceRule := [⟨⟨"a"⟩, "A", none⟩]

/-- Claim C2.  The claim states that a type-'replace' rule replaces
every non-overlapping match (global semantics).  The code compiles the
pattern WITHOUT the global flag (main.ts:71, "Remove 'g' flag"), so
String.replace rewrites only the first occurrence: on "a b a" the rule
a to A produces "A b a", not "A b A" (the repository's own test
"should replace all matches with regex replacer" expects every
occurrence replaced).  The zero-match clause of the claim does hold,
see the second conjunct of claim C10's theorem. -/
theorem replaceRule_rewrites_only_first_occurrence :
    compileRules [⟨"a", RuleType.replace, "A", none⟩] = some c2Compiled ∧
    applyRules c2Compiled (some "a b a") = "A b a" ∧
    applyRules c2Compiled (some "a b a") ≠ "A b A" :=
  ⟨rfl, rfl, by decide⟩

/-- Script of claim C3: always returns "X". -/
def c3Script : Script := fun _ => Except.ok "X"

/-- Compiled rule list of claim C3: a script rule on pattern "b". -/
def c3Compiled : List ReplaceRule := [⟨⟨"b"⟩, "", some c3Script⟩]

/-- Claim C3.  The claim states that a script rule's transform result is
spliced into the text at the match's span, preserving the surrounding
text.  The code returns the script result AS THE ENTIRE TEXT
(main.ts:249-251): on "a b c" with the match "b" transformed to "X"
the result is "X", not "a X c"; the text outside the matched span is
discarded (the repository's own test "should execute script for all
matches" expects splicing). -/
theorem script_result_replaces_entire_text :
    compileRules [⟨"b", RuleType.script, "", some c3Script⟩] = some c3Compiled ∧
    applyRules c3Compiled (some "a b c") = "X" ∧
    applyRules c3Compiled (some "a b c") ≠ "a X c" :=
  ⟨rfl, rfl, by decide⟩

/-- Script of claim C4: always throws. -/
def c4Script : Script := fun _ => Except.error "boom"

/-- Compiled script rule of claim C4, on pattern "err". -/
def c4Rule : ReplaceRule := ⟨⟨"err"⟩, "", some c4Script⟩

/-- Claim C4.  The claim states that when a script throws, the error is
captured, logged, and the replacement for the match equals the original
matched substring, producing no net change to the text for that match.
The capture and the fallback to match[0] are real (main.ts:96-100,
first conjunct), but because the rule's result replaces the entire text
(claim C3), the text "A err B" collapses to "err": a net change unless
the match spans the whole input. -/
theorem script_error_fallback_collapses_text_to_match :
    executeScript c4Rule ⟨"err", 2, "A err B"⟩ = "err" ∧
    applyRules [c4Rule] (some "A err B") = "err" ∧
    applyRules [c4Rule] (some "A err B") ≠ "A err B" :=
  ⟨rfl, rfl, by decide⟩

/-- Rule list of claim C5: the first rule's pattern "(" is an invalid
regular expression (an unterminated group in JavaScript), the second
rule's pattern "a" is valid. -/
def c5Rules : List Rule :=
  [⟨"(", RuleType.replace, "X", none⟩, ⟨"a", RuleType.replace, "A", none⟩]

/-- Valid rule list used by claim C5's amended theorem witness. -/
def c5OkRules : List Rule := [⟨"a", RuleType.replace, "A", none⟩]

/-- Claim C5, counterexample.  The claim states that compilation does
not throw on an invalid pattern, omits only the offending rule and
compiles every other valid rule; on `c5Rules` that would produce a
one-element compiled list.  The code's compileRules loop has no
try/catch, so the RegExp constructor error for "(" propagates and the
whole compilation yields nothing at all. -/
theorem compileRules_throws_on_invalid_pattern_cex : compileRules c5Rules = none := rfl

/-- Helper for claim C5: a single invalid pattern anywhere in the rule
list aborts the whole compilation. -/
theorem compileRules_none_of_invalid (rules : List Rule)
    (h : ∃ r ∈ rules, regExpNew r.pattern = none) : compileRules rules = none := by
  induction rules with
  | nil => rcases h with ⟨r, hr, _⟩; cases hr
  | cons a rest ih =>
    rcases h with ⟨r, hr, hnone⟩
    rcases List.mem_cons.mp hr with heq | hmem
    · subst heq
      unfold compileRules
      simp [replaceRuleNew, hnone]
    · have hrest := ih ⟨r, hmem, hnone⟩
      unfold compileRules
      cases hcr : replaceRuleNew a.pattern a.replacer
          (if a.type = RuleType.script then a.script else none) with
      | none => rfl
      | some cr => rw [hrest]

/-- Helper for claim C5: when every pattern compiles, the whole list
compiles, one compiled rule per rule. -/
theorem compileRules_length_of_valid (rules : List Rule)
    (h : ∀ r ∈ rules, (regExpNew r.pattern).isSome = true) :
    ∃ l, compileRules rules = some l ∧ l.length = rules.length := by
  induction rules with
  | nil => exact ⟨[], rfl, rfl⟩
  | cons a rest ih =>
    have ha := h a (List.mem_cons_self a rest)
    rcases Option.isSome_iff_exists.mp ha with ⟨re, hre⟩
    rcases ih (fun r hr => h r (List.mem_cons_of_mem a hr)) with ⟨l, hl, hlen⟩
    refine ⟨⟨re, a.replacer, if a.type = RuleType.script then a.script else none⟩ :: l, ?_, ?_⟩
    · unfold compileRules
      simp [replaceRuleNew, hre, hl]
    · simp [hlen]

/-- Claim C5 as amended.  When any rule's pattern fails to compile, the
RegExp error propagates out of compileRules and no compiled rule list
is produced (the remaining rules are not compiled); when every rule's
pattern compiles, compilation produces exactly one compiled rule per
rule. -/
theorem compileRules_invalid_pattern_aborts_compilation :
    (∀ rules : List Rule, (∃ r ∈ rules, regExpNew r.pattern = none) →
      compileRules rules = none)
    ∧ (∀ rules : List Rule, (∀ r ∈ rules, (regExpNew r.pattern).isSome = true) →
      ∃ l, compileRules rules = some l ∧ l.length = rules.length) :=
  ⟨compileRules_none_of_invalid, compileRules_length_of_valid⟩

/-- Witness for claim C5's amended theorem, at the concrete rule lists
`c5Rules` (one invalid pattern) and `c5OkRules` (all valid). -/
theorem compileRules_invalid_pattern_aborts_compilation_witness :
    ((∃ r ∈ c5Rules, regExpNew r.pattern = none) ∧ compileRules c5Rules = none)
    ∧ ((∀ r ∈ c5OkRules, (regExpNew r.pattern).isSome = true) ∧
      ∃ l, compileRules c5OkRules = some l ∧ l.length = c5OkRules.length) :=
  ⟨⟨by decide, compileRules_invalid_pattern_aborts_compilation.1 c5Rules (by decide)⟩,
    ⟨by decide, compileRules_invalid_pattern_aborts_compilation.2 c5OkRules (by decide)⟩⟩

/-- Script of claim C6: records its execution by returning a sentinel. -/
def c6Script : Script := fun _ => Except.ok "SCRIPT-RAN"

/-- Rule list of claim C6: one script rule. -/
def c6Rules : List Rule := [⟨"abc", RuleType.script, "", some c6Script⟩]

/-- Compiled form of `c6Rules`: the script is present in the compiled
rule. -/
def c6Compiled : List ReplaceRule := [⟨⟨"abc"⟩, "", some c6Script⟩]

/-- Claim C6.  The claim states that a global executable-transform
permission flag, when false, causes script rules to be omitted from the
compiled set and never executed.  No such flag exists anywhere in
src/main.ts: PasteTransformSettingsV2 has only rules,
settingsFormatVersion and debugMode, and compileRules includes script
rules unconditionally, so the script both reaches the compiled set and
runs (its sentinel value is returned). -/
theorem script_rule_compiled_and_executed_without_permission_gate :
    compileRules c6Rules = some c6Compiled ∧
    applyRules c6Compiled (some "abc") = "SCRIPT-RAN" :=
  ⟨rfl, rfl⟩

/-- Claim C7.  The claim states that a null or undefined source makes
the run operation return the record changed=false, result="".  The
code does return without raising, but it returns the BARE STRING "";
applyRules is declared `Promise<string>` and no changed flag or
RunResult shape exists anywhere in src/main.ts (the repository's own
tests destructure changed and result from applyRules's value). -/
theorem applyRules_null_returns_bare_empty_string :
    ∀ rules : List ReplaceRule, applyRules rules none = "" :=
  fun _ => rfl

/-- Claim C8.  The claim states that a watchdog fires a slow-transform
notification 3000 ms after invocation start whenever the transform has
not completed.  ReplaceRule.executeScript in src/main.ts schedules no
timer and constructs no Notice at all (its only output channels are
console.log and console.error), so no invocation ever produces a
notification: the instrumented embedding computes the same replacement
string and an always-empty notification record. -/
theorem executeScript_never_emits_notifications :
    ∀ (rr : ReplaceRule) (m : JsMatch),
      (executeScriptWithNotices rr m).1 = executeScript rr m ∧
      (executeScriptWithNotices rr m).2 = [] := by
  intro rr m
  cases hs : rr.script with
  | none => simp [executeScriptWithNotices, executeScript, hs]
  | some f =>
    cases hf : f m with
    | ok s => simp [executeScriptWithNotices, executeScript, hs, hf]
    | error e => simp [executeScriptWithNotices, executeScript, hs, hf]

/-- Version-1 settings object of claim C9, taken from the repository's
own test "should handle mismatched patterns and replacers arrays":
three patterns, two replacers. -/
def c9Old : PasteTransformSettingsV1 :=
  ⟨["^sync:(.+)$", "^error:(.+)$", "^test:(.+)$"], ["SYNC:$1", "ERROR:$1"], 1, false⟩

/-- Claim C9.  The pairing parts of the claim hold: migration pairs the
arrays positionally up to the shorter length (the unpaired third
pattern is dropped), each pair becomes a type-'replace' rule, and the
format version becomes 2.  But the produced Rule records carry no
enabled field and the produced settings carry no executable-transform
permission flag: those fields do not exist in the data model of
src/main.ts (see the `Rule` and `PasteTransformSettingsV2` structures
above), so "enabled by default" and "flag set to false" are not
satisfied, while the repository's own migration test expects both. -/
theorem loadSettingsV1_pairs_min_sets_version2 :
    loadSettingsV1 c9Old =
      ⟨[⟨"^sync:(.+)$", RuleType.replace, "SYNC:$1", none⟩,
        ⟨"^error:(.+)$", RuleType.replace, "ERROR:$1", none⟩], 2, false⟩ :=
  rfl

/-- Helper for claim C10: when no rule's pattern matches the source,
findMatchingRule yields none. -/
theorem findMatchingRule_eq_none (rules : List ReplaceRule) (s : String)
    (h : ∀ p ∈ rules, jsMatch s p.pattern = none) : findMatchingRule rules s = none := by
  induction rules with
  | nil => rfl
  | cons a rest ih =>
    have ha := h a (List.mem_cons_self a rest)
    simp only [findMatchingRule, ha]
    exact ih (fun p hp => h p (List.mem_cons_of_mem a hp))

/-- Helper for claim C10: findMatchingRule returns the first rule in
list order whose pattern matches, whatever follows it. -/
theorem findMatchingRule_append_first (pre : List ReplaceRule) (r : ReplaceRule)
    (post : List ReplaceRule) (s : String)
    (hpre : ∀ p ∈ pre, jsMatch s p.pattern = none)
    (hr : (jsMatch s r.pattern).isSome = true) :
    findMatchingRule (pre ++ r :: post) s = some r := by
  induction pre with
  | nil =>
    rcases Option.isSome_iff_exists.mp hr with ⟨m, hm⟩
    simp only [List.nil_append, findMatchingRule, hm]
  | cons a rest ih =>
    have ha := hpre a (List.mem_cons_self a rest)
    rw [List.cons_append]
    simp only [findMatchingRule, ha]
    exact ih (fun p hp => hpre p (List.mem_cons_of_mem a hp))

/-- Claim C10.  applyRules executes at most one rule: whenever every
rule before `r` fails to match and `r` matches, the result is exactly
`executeRule r s`, independently of every rule after `r` (first
conjunct, `post` universally quantified); and when no rule matches, the
source string is returned unchanged (second conjunct). -/
theorem applyRules_executes_only_first_matching_rule :
    (∀ (pre post : List ReplaceRule) (r : ReplaceRule) (s : String),
        (∀ p ∈ pre, jsMatch s p.pattern = none) →
        (jsMatch s r.pattern).isSome = true →
        applyRules (pre ++ r :: post) (some s) = executeRule r s)
    ∧ (∀ (rules : List ReplaceRule) (s : String),
        (∀ p ∈ rules, jsMatch s p.pattern = none) →
        applyRules rules (some s) = s) := by
  constructor
  · intro pre post r s hpre hr
    simp only [applyRules, findMatchingRule_append_first pre r post s hpre hr]
  · intro rules s h
    simp only [applyRules, findMatchingRule_eq_none rules s h]

/-- Non-matching first rule of claim C10's witness. -/
def c10Pre : ReplaceRule := ⟨⟨"q"⟩, "Q", none⟩

/-- First matching rule of claim C10's witness. -/
def c10Hit : ReplaceRule := ⟨⟨"b"⟩, "B", none⟩

/-- Later rule of claim C10's witness; it also matches the source, but
must not affect the result. -/
def c10Post : ReplaceRule := ⟨⟨"a"⟩, "Z", none⟩

/-- Witness for claim C10's theorem at concrete rules and sources: on
"ab" the first matching rule (pattern "b") alone determines the result
even though the later rule (pattern "a") also matches; on "xy" no rule
matches and the source is returned unchanged. -/
theorem applyRules_executes_only_first_matching_rule_witness :
    ((∀ p ∈ [c10Pre], jsMatch "ab" p.pattern = none) ∧
      (jsMatch "ab" c10Hit.pattern).isSome = true ∧
      applyRules ([c10Pre] ++ c10Hit :: [c10Post]) (some "ab") = executeRule c10Hit "ab") ∧
    ((∀ p ∈ [c10Pre], jsMatch "xy" p.pattern = none) ∧
      applyRules [c10Pre] (some "xy") = "xy") :=
  ⟨⟨by decide, by decide,
      applyRules_executes_only_first_matching_rule.1 [c10Pre] [c10Post] c10Hit "ab"
        (by decide) (by decide)⟩,
    ⟨by decide,
      applyRules_executes_only_first_matching_rule.2 [c10Pre] "xy" (by decide)⟩⟩
